import Mathlib

/-!
# Horzcat node of the MX expression graph (src/casadi/mx/horzcat.cpp)

Shallow embedding of `Horzcat::Horzcat`, `Horzcat::print` and
`Horzcat::evaluate`, and the properties of the concatenation node that the
specification states about them.

Modelling conventions.

* An `MX` handle is a natural number naming a node; a `graph : Nat → MXNode α`
  gives, for each handle, the shape and the two value buffers `val(0)`, `val(1)`
  of the node it refers to.  Two handles are the same node iff they are equal.
* The Horzcat node under evaluation is kept outside `graph`: its operands exist
  before it is built, so it is never one of its own operands.
* An operand is an existing node with a valid shape: its `size1()`, `size2()`
  and `numel()` are natural numbers.  The constructor accumulates the column
  count in the 32-bit `int sz2`; a sum that leaves the `int` range wraps around
  (two's complement), so the shape stored in the new node is a pair of integers.
  The running offset `i` of the copy loops and `numel()` are natural numbers.
* `assert` is modelled as enabled: a failed assertion stops the call.
* `std::copy` through a raw pointer into a buffer is checked: a copy that would
  leave the destination (or source) buffer stops the call with `outOfBounds`.
  A copy of `n` cells at offset `i` is in range when `i + n` does not exceed the
  buffer length, so a copy of zero cells may start one past the last cell.
* Both copy loops record each copy as an (offset, cell count) pair; the record
  is bookkeeping for the buffer-accounting property and has no effect on the
  buffers.
* The scalar type `α` is arbitrary; buffers are only copied by this node.
-/

namespace CasADi

/-- Data of an operand node as horzcat.cpp uses it: the shape (`size1()`,
`size2()`), which is valid and hence non-negative, and the value buffers
`val(0)` and `val(1)`. -/
structure MXNode (α : Type) where
  nrow : Nat
  ncol : Nat
  val0 : List α
  val1 : List α
  deriving DecidableEq

/-- Counterpart of `numel()`: rows times columns. -/
def MXNode.numel {α : Type} (n : MXNode α) : Nat := n.nrow * n.ncol

/-- Counterpart of `val(order)`: buffer 0 for order 0, buffer 1 otherwise. -/
def MXNode.val {α : Type} (n : MXNode α) (order : Nat) : List α :=
  match order with
  | 0 => n.val0
  | _ => n.val1

/-- Replaces the buffer `val(order)` of a node. -/
def MXNode.setVal {α : Type} (n : MXNode α) (order : Nat) (b : List α) : MXNode α :=
  match order with
  | 0 => { n with val0 := b }
  | _ => { n with val1 := b }

/-- A Horzcat node: the shape `sz.nrow`, `sz.ncol` as the `int` values the
constructor stored, the value buffers `val(0)` and `val(1)`, and the ordered
dependency handles `dep_`. -/
structure Horzcat (α : Type) where
  nrow : Int
  ncol : Int
  val0 : List α
  val1 : List α
  dep_ : List Nat
  deriving DecidableEq

/-- Counterpart of `val(order)` on the Horzcat node itself. -/
def Horzcat.val {α : Type} (n : Horzcat α) (order : Nat) : List α :=
  match order with
  | 0 => n.val0
  | _ => n.val1

/-- Replaces the buffer `val(order)` of the Horzcat node. -/
def Horzcat.setVal {α : Type} (n : Horzcat α) (order : Nat) (b : List α) : Horzcat α :=
  match order with
  | 0 => { n with val0 := b }
  | _ => { n with val1 := b }

/-- The value a 32-bit `int` holds when the exact result of an addition is `x`:
`x` itself inside the range -2^31 .. 2^31 - 1, wrapped around modulo 2^32
outside it. -/
def wrapInt (x : Int) : Int := (x + 2147483648) % 4294967296 - 2147483648

/-- The loop of the constructor: `assert(sz1==it->size1()); sz2 += it->size2();`
for every dependency, with `sz2` a 32-bit `int`; `none` when an assertion
fails. -/
def Horzcat.sumCols {α : Type} (graph : Nat → MXNode α) (sz1 : Nat) :
    List Nat → Int → Option Int
  | [], sz2 => some sz2
  | it :: rest, sz2 =>
    if sz1 = (graph it).nrow then
      Horzcat.sumCols graph sz1 rest (wrapInt (sz2 + (graph it).ncol))
    else none

/-- Counterpart of `Horzcat::Horzcat(const vector<MX>& dep__)`.  The buffers
`v0`, `v1` stand for the storage the base class provides for `val(0)` and
`val(1)`; the constructor body does not touch them.  `none` when an assertion
fails. -/
def Horzcat.new {α : Type} (graph : Nat → MXNode α) (dep__ : List Nat)
    (v0 v1 : List α) : Option (Horzcat α) :=
  match dep__ with
  | [] => none
  | d0 :: _ =>
    let sz1 := (graph d0).nrow
    match Horzcat.sumCols graph sz1 dep__ 0 with
    | none => none
    | some sz2 =>
      some { nrow := (sz1 : Int), ncol := sz2, val0 := v0, val1 := v1, dep_ := dep__ }

/-- Counterpart of `Horzcat::print`: `"["`, then every dependency written by an
`ostream_iterator` with delimiter `","` (the delimiter follows each element),
then `"]"`.  `text` is the textual form of an operand (`operator<<` of `MX`). -/
def Horzcat.print {α : Type} (text : Nat → String) (n : Horzcat α) : String :=
  "[" ++ String.join (n.dep_.map (fun d => text d ++ ",")) ++ "]"

/-- How a call of `evaluate` ends. -/
inductive Status where
  | ok
  | assertFailed
  | outOfBounds
  deriving DecidableEq, Repr

/-- Counterpart of `std::copy(src.begin(), src.end(), &buf[i])` on an in-range
destination: cells `i .. i + src.length - 1` of `buf` are replaced by `src`. -/
def writeAt {α : Type} (buf : List α) (i : Nat) (src : List α) : List α :=
  buf.take i ++ src ++ buf.drop (i + src.length)

/-- State of a copy loop into the node's buffer: the buffer, the running
offset `i`, and a record of the copies done so far as (offset, cell count). -/
structure CopyState (α : Type) where
  status : Status
  buf : List α
  i : Nat
  log : List (Nat × Nat)

/-- The primal / forward loop of `evaluate` for buffer `order`:
`copy((*it)->val(order).begin(), (*it)->val(order).end(), &val(order)[i]);
 i += it->numel();` for every dependency in order. -/
def Horzcat.gather {α : Type} (graph : Nat → MXNode α) (order : Nat) :
    List Nat → List α → Nat → List (Nat × Nat) → CopyState α
  | [], buf, i, log => { status := .ok, buf := buf, i := i, log := log }
  | it :: rest, buf, i, log =>
    let src := (graph it).val order
    if i + src.length ≤ buf.length then
      Horzcat.gather graph order rest (writeAt buf i src) (i + (graph it).numel)
        (log ++ [(i, src.length)])
    else { status := .outOfBounds, buf := buf, i := i, log := log }

/-- State of the adjoint loop: the operand nodes, the running offset `i`, and
the offsets at which a slice was read. -/
structure ScatterState (α : Type) where
  status : Status
  graph : Nat → MXNode α
  i : Nat
  log : List (Nat × Nat)

/-- The adjoint loop of `evaluate`:
`copy(&val(1)[i], &val(1)[i] + it->numel(), (*it)->val(1).begin());
 i += it->numel();` for every dependency in order; `own1` is the node's own
`val(1)`. -/
def Horzcat.scatter {α : Type} (own1 : List α) :
    List Nat → (Nat → MXNode α) → Nat → List (Nat × Nat) → ScatterState α
  | [], graph, i, log => { status := .ok, graph := graph, i := i, log := log }
  | it :: rest, graph, i, log =>
    let n := (graph it).numel
    if i + n ≤ own1.length ∧ n ≤ (graph it).val1.length then
      Horzcat.scatter own1 rest
        (Function.update graph it
          ((graph it).setVal 1 (writeAt (graph it).val1 0 ((own1.drop i).take n))))
        (i + n) (log ++ [(i, n)])
    else { status := .outOfBounds, graph := graph, i := i, log := log }

/-- The memory `evaluate` works on: the Horzcat node and the operand nodes. -/
structure Machine (α : Type) where
  node : Horzcat α
  graph : Nat → MXNode α

/-- Result of a call of `evaluate`: how it ended and the memory at that point. -/
structure EvalResult (α : Type) where
  status : Status
  state : Machine α

/-- Counterpart of `Horzcat::evaluate(int fsens_order, int asens_order)`. -/
def Horzcat.evaluate {α : Type} (fsens_order asens_order : Int) (m : Machine α) :
    EvalResult α :=
  if ¬ (fsens_order = 0 ∨ asens_order = 0) then
    { status := .assertFailed, state := m }
  else
    let order : Nat := if fsens_order = 0 then 0 else 1
    let c := Horzcat.gather m.graph order m.node.dep_ (m.node.val order) 0 []
    let node1 : Horzcat α := m.node.setVal order c.buf
    match c.status with
    | .ok =>
      if asens_order > 0 then
        let s := Horzcat.scatter node1.val1 node1.dep_ m.graph 0 []
        { status := s.status, state := { node := node1, graph := s.graph } }
      else
        { status := .ok, state := { node := node1, graph := m.graph } }
    | st => { status := st, state := { node := node1, graph := m.graph } }

/-- The rendering the specification describes: the operands' textual forms
separated by commas, between brackets. -/
def Horzcat.printSpec {α : Type} (text : Nat → String) (n : Horzcat α) : String :=
  "[" ++ String.intercalate "," (n.dep_.map text) ++ "]"

/-- Operands of the end-to-end scenario: node 0 is A (2x1, values 1 2, tangent
1 0), node 1 is B (2x2, values 3 4 5 6 column by column, tangent zero); every
other handle is an empty 0x0 node. -/
def scenarioGraph : Nat → MXNode Int := fun h =>
  match h with
  | 0 => { nrow := 2, ncol := 1, val0 := [1, 2], val1 := [1, 0] }
  | 1 => { nrow := 2, ncol := 2, val0 := [3, 4, 5, 6], val1 := [0, 0, 0, 0] }
  | _ => { nrow := 0, ncol := 0, val0 := [], val1 := [] }

/-- The node `[A, B]` of the scenario, with a stale order-0 buffer and the
cotangent 1 0 1 0 1 0 in its order-1 buffer. -/
def scenarioNode : Horzcat Int :=
  { nrow := 2, ncol := 3, val0 := [0, 0, 0, 0, 0, 0], val1 := [1, 0, 1, 0, 1, 0],
    dep_ := [0, 1] }

/-- Textual forms of the scenario operands. -/
def scenarioText : Nat → String := fun h =>
  match h with
  | 0 => "A"
  | _ => "B"

/-- Two operands of shapes (2,3) and (3,3). -/
def mismatchGraph : Nat → MXNode Int := fun h =>
  match h with
  | 0 => { nrow := 2, ncol := 3, val0 := [0, 0, 0, 0, 0, 0], val1 := [0, 0, 0, 0, 0, 0] }
  | _ => { nrow := 3, ncol := 3, val0 := [0, 0, 0, 0, 0, 0, 0, 0, 0],
           val1 := [0, 0, 0, 0, 0, 0, 0, 0, 0] }

/-- One 0 x 2^30 operand (no cells) at every handle. -/
def flatGraph : Nat → MXNode Int := fun _ =>
  { nrow := 0, ncol := 1073741824, val0 := [], val1 := [] }

theorem wrapInt_add_wrapInt (a b : Int) : wrapInt (wrapInt a + b) = wrapInt (a + b) := by
  unfold wrapInt
  omega

theorem wrapInt_of_range (x : Int) (h0 : 0 ≤ x) (h1 : x < 2147483648) : wrapInt x = x := by
  unfold wrapInt
  omega

/-- The column sum as the `int` accumulator holds it after the loop. -/
theorem Horzcat.sumCols_eq_some_iff {α : Type} (graph : Nat → MXNode α) (sz1 : Nat)
    (deps : List Nat) (acc s : Int) :
    Horzcat.sumCols graph sz1 deps (wrapInt acc) = some s ↔
      (∀ d ∈ deps, (graph d).nrow = sz1) ∧
        s = wrapInt (acc + ((deps.map (fun d => (graph d).ncol)).sum : Nat)) := by
  induction deps generalizing acc with
  | nil => simp [Horzcat.sumCols, eq_comm]
  | cons it rest ih =>
    by_cases h : sz1 = (graph it).nrow
    · subst h
      simp only [Horzcat.sumCols, if_true, wrapInt_add_wrapInt, ih, List.mem_cons,
        forall_eq_or_imp, true_and, List.map_cons, List.sum_cons, Nat.cast_add, Int.add_assoc]
    · simp [Horzcat.sumCols, h]
      intro h1
      exact absurd h1.symm h

theorem Horzcat.sumCols_eq_none_iff {α : Type} (graph : Nat → MXNode α) (sz1 : Nat)
    (deps : List Nat) (acc : Int) :
    Horzcat.sumCols graph sz1 deps acc = none ↔ ∃ d ∈ deps, (graph d).nrow ≠ sz1 := by
  induction deps generalizing acc with
  | nil => simp [Horzcat.sumCols]
  | cons it rest ih =>
    by_cases h : sz1 = (graph it).nrow
    · subst h
      simp [Horzcat.sumCols, ih]
    · simp [Horzcat.sumCols, h]
      exact Or.inl (fun h1 => h h1.symm)

theorem Horzcat.new_eq_some_iff {α : Type} (graph : Nat → MXNode α) (d0 : Nat)
    (rest : List Nat) (v0 v1 : List α) (node : Horzcat α) :
    Horzcat.new graph (d0 :: rest) v0 v1 = some node ↔
      (∀ d ∈ d0 :: rest, (graph d).nrow = (graph d0).nrow) ∧
        node = { nrow := ((graph d0).nrow : Int),
                 ncol := wrapInt (((d0 :: rest).map (fun d => (graph d).ncol)).sum : Nat),
                 val0 := v0, val1 := v1, dep_ := d0 :: rest } := by
  have hw : (0 : Int) = wrapInt 0 := by decide
  simp only [Horzcat.new]
  rw [hw]
  cases hs : Horzcat.sumCols graph (graph d0).nrow (d0 :: rest) (wrapInt 0) with
  | none =>
    simp only [reduceCtorEq, false_iff, not_and]
    intro hall
    obtain ⟨d, hd, hne⟩ := (Horzcat.sumCols_eq_none_iff graph _ _ _).1 hs
    exact absurd (hall d hd) hne
  | some s =>
    obtain ⟨hall, hsum⟩ := (Horzcat.sumCols_eq_some_iff graph _ _ _ _).1 hs
    simp only [Int.zero_add] at hsum
    simp only [Option.some.injEq]
    constructor
    · intro h
      exact ⟨hall, by rw [← h, hsum]⟩
    · rintro ⟨-, h⟩
      rw [h, hsum]

/-! ## Copies into the node's buffer -/

theorem Horzcat.gather_status {α : Type} (graph : Nat → MXNode α) (order : Nat)
    (deps : List Nat) (buf : List α) (i : Nat) (log : List (Nat × Nat)) :
    (Horzcat.gather graph order deps buf i log).status ≠ .assertFailed := by
  induction deps generalizing buf i log with
  | nil => simp [Horzcat.gather]
  | cons it rest ih =>
    simp only [Horzcat.gather]
    split
    · exact ih _ _ _
    · simp

theorem Horzcat.scatter_status {α : Type} (own1 : List α) (deps : List Nat)
    (graph : Nat → MXNode α) (i : Nat) (log : List (Nat × Nat)) :
    (Horzcat.scatter own1 deps graph i log).status ≠ .assertFailed := by
  induction deps generalizing graph i log with
  | nil => simp [Horzcat.scatter]
  | cons it rest ih =>
    simp only [Horzcat.scatter]
    split
    · exact ih _ _ _
    · simp

theorem Horzcat.evaluate_status_of_accepted {α : Type} (fsens_order asens_order : Int)
    (m : Machine α) (h : fsens_order = 0 ∨ asens_order = 0) :
    (Horzcat.evaluate fsens_order asens_order m).status ≠ .assertFailed := by
  simp only [Horzcat.evaluate, h, not_true_eq_false, if_false]
  split
  · split
    · exact Horzcat.scatter_status _ _ _ _ _
    · simp
  · intro hc
    exact Horzcat.gather_status _ _ _ _ _ _ (by simpa using hc)

/-- C2, as stated, fails when the column sum leaves the `int` range: two
operands of shape (0, 2^30) have the same row count and column sum 2^31, yet
the node the constructor builds has column count -2^31. -/
theorem Horzcat.column_sum_wraps :
    (∀ d ∈ [0, 1], (flatGraph d).nrow = 0) ∧
    ([0, 1].map (fun d => (flatGraph d).ncol)).sum = 2147483648 ∧
    Horzcat.new flatGraph [0, 1] [] []
      = some { nrow := 0, ncol := -2147483648, val0 := [], val1 := [], dep_ := [0, 1] } := by
  decide

/-- C2 (amended): for a non-empty operand list in which every operand has row
count `r` and whose column counts sum to at most 2^31 - 1, the constructor
produces a node of shape (`r`, sum of the operands' column counts) whose
dependency list is the operand list in the same order. -/
theorem Horzcat.new_shape {α : Type} (graph : Nat → MXNode α) (dep__ : List Nat)
    (v0 v1 : List α) (r : Nat) (hne : dep__ ≠ [])
    (hrow : ∀ d ∈ dep__, (graph d).nrow = r)
    (hsum : (dep__.map (fun d => (graph d).ncol)).sum < 2147483648) :
    ∃ node, Horzcat.new graph dep__ v0 v1 = some node ∧ node.nrow = r ∧
      node.ncol = ((dep__.map (fun d => (graph d).ncol)).sum : Nat) ∧ node.dep_ = dep__ := by
  cases dep__ with
  | nil => exact absurd rfl hne
  | cons d0 rest =>
    have h0 : (graph d0).nrow = r := hrow d0 (List.mem_cons_self _ _)
    refine ⟨_, (Horzcat.new_eq_some_iff graph d0 rest v0 v1 _).2 ⟨?_, rfl⟩, ?_, ?_, rfl⟩
    · intro d hd
      rw [hrow d hd, h0]
    · simp only [h0]
    · exact wrapInt_of_range _ (Int.natCast_nonneg _) (by exact_mod_cast hsum)

theorem Horzcat.new_shape_witness :
    ∃ node, Horzcat.new scenarioGraph [0, 1] [0, 0, 0, 0, 0, 0] [1, 0, 1, 0, 1, 0]
        = some node ∧ node.nrow = (2 : Nat) ∧
      node.ncol = (([0, 1].map (fun d => (scenarioGraph d).ncol)).sum : Nat) ∧
      node.dep_ = [0, 1] :=
  Horzcat.new_shape scenarioGraph [0, 1] [0, 0, 0, 0, 0, 0] [1, 0, 1, 0, 1, 0] 2
    (by decide) (by decide) (by decide)

/-- C3: construction fails exactly when the operand list is empty or some
operand's row count differs from the first operand's row count; operands of
shapes (2,3) and (3,3) are rejected. -/
theorem Horzcat.new_fails_iff {α : Type} (graph : Nat → MXNode α) (dep__ : List Nat)
    (v0 v1 : List α) :
    (Horzcat.new graph dep__ v0 v1 = none ↔
      dep__ = [] ∨
        ∃ d0, dep__.head? = some d0 ∧ ∃ d ∈ dep__, (graph d).nrow ≠ (graph d0).nrow) ∧
    Horzcat.new mismatchGraph [0, 1] [] [] = none := by
  refine ⟨?_, by decide⟩
  cases dep__ with
  | nil => simp [Horzcat.new]
  | cons d0 rest =>
    simp only [Horzcat.new, reduceCtorEq, List.head?_cons, Option.some.injEq, false_or,
      exists_eq_left']
    cases hs : Horzcat.sumCols graph (graph d0).nrow (d0 :: rest) 0 with
    | none =>
      simp only [true_iff]
      exact (Horzcat.sumCols_eq_none_iff graph _ _ _).1 hs
    | some s =>
      simp only [reduceCtorEq, false_iff]
      rintro ⟨d, hd, hne⟩
      have hw : (0 : Int) = wrapInt 0 := by decide
      rw [hw] at hs
      exact hne (((Horzcat.sumCols_eq_some_iff graph _ _ _ _).1 hs).1 d hd)

/-- C8: a call with both orders nonzero is rejected with the memory exactly as
it was passed in (no buffer of the node or of an operand has been written), and
a call is rejected only then: every call with at least one order equal to zero
passes the assertion. -/
theorem Horzcat.evaluate_rejects_mixed {α : Type} (fsens_order asens_order : Int)
    (m : Machine α) :
    (Horzcat.evaluate fsens_order asens_order m = { status := .assertFailed, state := m } ↔
      (fsens_order ≠ 0 ∧ asens_order ≠ 0)) ∧
    ((Horzcat.evaluate fsens_order asens_order m).status ≠ .assertFailed ↔
      (fsens_order = 0 ∨ asens_order = 0)) := by
  by_cases h : fsens_order = 0 ∨ asens_order = 0
  · have hst := Horzcat.evaluate_status_of_accepted fsens_order asens_order m h
    have hn : ¬ (fsens_order ≠ 0 ∧ asens_order ≠ 0) := by
      rcases h with h | h <;> simp [h]
    refine ⟨⟨fun he => absurd (by rw [he]) hst, fun hc => absurd hc hn⟩, ?_⟩
    exact ⟨fun _ => h, fun _ => hst⟩
  · have hn : fsens_order ≠ 0 ∧ asens_order ≠ 0 := by
      constructor
      · exact fun h0 => h (Or.inl h0)
      · exact fun h0 => h (Or.inr h0)
    have he : Horzcat.evaluate fsens_order asens_order m
        = { status := .assertFailed, state := m } := by
      simp [Horzcat.evaluate, h]
    refine ⟨⟨fun _ => hn, fun _ => he⟩, ?_⟩
    rw [he]
    simp [h]

/-- C9 fails on the code: for the scenario node `[A, B]` the printed text is
`[A,B,]`, with a comma after the last operand as well, while the bracketed
comma-separated list is `[A,B]`. -/
theorem Horzcat.print_trailing_comma :
    Horzcat.print scenarioText scenarioNode = "[A,B,]" ∧
    Horzcat.printSpec scenarioText scenarioNode = "[A,B]" ∧
    Horzcat.print scenarioText scenarioNode ≠ Horzcat.printSpec scenarioText scenarioNode := by
  decide

end CasADi
